import Mathlib

/-!
Verification of the import-pipeline core of the vtk-widget-demo repository:
the data-source model, the primary-selection heuristic (`findBaseDicom`,
`findBaseImage`, `findBaseDataSource` in `src/actions/loadUserFiles.ts`),
archive expansion (`src/io/zip.ts`), the single-file import handler, result
partitioning and the load effect trace. Collaborator code that lives outside
the given sources (the pipeline result model, `partitionResults`,
`getDataSourceName`, the path helpers) is modelled from the specification and
marked as such in its doc comment.
-/

namespace VtkWidget

/-- A file object: a name and byte content (bytes modelled as a string). -/
structure File where
  name : String
  content : String
deriving DecidableEq, Repr

/-- The raw byte source of a `DataSource`: the underlying file plus its
file-type classification. -/
structure FileSrc where
  file : File
  fileType : String
deriving DecidableEq, Repr

/-- A byte source located inside a parent archive. -/
structure ArchiveSrc where
  file : File
  archivePath : String
deriving DecidableEq, Repr

/-- Modelled from the spec: a `DataSource` (src/io/import/dataSource is not
among the given sources) describes one candidate input — an optional raw byte
source and an optional archive-located source. The spec's `parent`
back-reference serves only to compute the error-attribution stack trace
(spec §3), which is modelled directly as the explicit `inputDataStackTrace`
list carried by error records. -/
structure DataSource where
  fileSrc : Option FileSrc
  archiveSrc : Option ArchiveSrc
deriving DecidableEq, Repr

/-- The kind tag of an import result (`dataType` in the source). -/
inductive DataType where
  | image
  | dicom
  | model
deriving DecidableEq, Repr

/-- The `ImportResult` success payload: `{ dataID, dataSource, dataType }`. -/
structure ImportResult where
  dataID : String
  dataSource : DataSource
  dataType : DataType
deriving DecidableEq, Repr

/-- A loadable result has the same shape as an `ImportResult` in the source. -/
abbrev LoadableResult := ImportResult

/-- DICOM per-volume metadata consulted by `findBaseDicom`: the modality tag
and the slice count, each possibly absent (JavaScript `undefined`). -/
structure VolumeInfo where
  Modality : Option String
  NumberOfSlices : Option Nat
deriving DecidableEq, Repr

/-- The modality priority table `BASE_MODALITY_TYPES` from
`src/actions/loadUserFiles.ts`. -/
def BASE_MODALITY_TYPES : List (String × Nat) :=
  [("CT", 3), ("MR", 3), ("US", 2), ("DX", 1)]

/-- Look up a modality in `BASE_MODALITY_TYPES` (the `modality in
BASE_MODALITY_TYPES` test plus the `.priority` projection). -/
def modalityPriority (m : String) : Option Nat :=
  (BASE_MODALITY_TYPES.find? (fun p => p.1 == m)).map (fun p => p.2)

/-- JavaScript falsiness of an optional slice count: `!n` holds for an absent
value and for `0`. -/
def jsFalsyNat (n : Option Nat) : Bool := n.getD 0 == 0

/-- One element of the `baseDicomVolumes` intermediate array inside
`findBaseDicom`. -/
structure DicomCandidate where
  dicomSource : LoadableResult
  priority : Nat
  volumeInfo : VolumeInfo
deriving DecidableEq, Repr

/-- The sort comparator of `findBaseDicom` (src/actions/loadUserFiles.ts,
lines 52–64): priority difference `a - b` first, then missing slice counts
sort last, then descending slice count. -/
def dicomCompare (a b : DicomCandidate) : Int :=
  let priorityDiff : Int := (a.priority : Int) - (b.priority : Int)
  if priorityDiff ≠ 0 then priorityDiff
  else if jsFalsyNat a.volumeInfo.NumberOfSlices then 1
  else if jsFalsyNat b.volumeInfo.NumberOfSlices then -1
  else ((b.volumeInfo.NumberOfSlices.getD 0 : Int)
    - (a.volumeInfo.NumberOfSlices.getD 0 : Int))

/-- Insert `x` into an already-sorted prefix, placing it before the first
element `y` with `cmp y x > 0` — the position JavaScript's stable
insertion-based `Array.prototype.sort` gives it. -/
def jsInsert (cmp : α → α → Int) (x : α) : List α → List α
  | [] => [x]
  | y :: ys => if cmp y x > 0 then x :: y :: ys else y :: jsInsert cmp x ys

/-- Stable comparator sort modelling JavaScript `Array.prototype.sort`. -/
def jsSort (cmp : α → α → Int) (l : List α) : List α :=
  l.foldl (fun acc x => jsInsert cmp x acc) []

/-- The map step of `findBaseDicom`: look up the volume info of a dicom
source, keep it only when its modality is in `BASE_MODALITY_TYPES`. -/
def toDicomCandidate (volumeInfoOf : String → Option VolumeInfo)
    (dicomSource : LoadableResult) : Option DicomCandidate :=
  match volumeInfoOf dicomSource.dataID with
  | none => none
  | some volumeInfo =>
    match volumeInfo.Modality with
    | none => none
    | some m =>
      (modalityPriority m).map
        (fun p => ⟨dicomSource, p, volumeInfo⟩)

/-- The function `findBaseDicom` from `src/actions/loadUserFiles.ts`: filter the dicom
results, keep those whose modality is in the priority table, sort with
`dicomCompare`, return the first. `volumeInfoOf` stands for the dicom store's
`volumeInfo` record. -/
def findBaseDicom (volumeInfoOf : String → Option VolumeInfo)
    (loadableDataSources : List LoadableResult) : Option LoadableResult :=
  let dicoms := loadableDataSources.filter (fun r => r.dataType == DataType.dicom)
  let baseDicomVolumes :=
    jsSort dicomCompare (dicoms.filterMap (toDicomCandidate volumeInfoOf))
  (baseDicomVolumes.head?).map (fun c => c.dicomSource)

/-! Concrete fixtures for the DICOM selection claims. -/

/-- A dicom result whose volume has modality DX. -/
def dxResult : LoadableResult :=
  { dataID := "vol-dx", dataSource := { fileSrc := none, archiveSrc := none }, dataType := .dicom }

/-- A dicom result whose volume has modality US. -/
def usResult : LoadableResult :=
  { dataID := "vol-us", dataSource := { fileSrc := none, archiveSrc := none }, dataType := .dicom }

/-- Volume metadata: DX with 100 slices, US with 1 slice. -/
def dxUsVolumeInfo : String → Option VolumeInfo :=
  fun id =>
    if id = "vol-dx" then some { Modality := some "DX", NumberOfSlices := some 100 }
    else if id = "vol-us" then some { Modality := some "US", NumberOfSlices := some 1 }
    else none

/-- C1: the claim says `findBaseDicom` returns the candidate with the highest
modality priority, in particular US (priority 2) over DX (priority 1).
Evaluating the source's comparator (`a - b` on priorities, ascending) on that
exact input shows the code instead returns the DX result in either input
order, contradicting the claim, the spec, and the source's own comment
"higher value priority is preferred for picking a primary selection". -/
theorem findBaseDicom_dx_us :
    findBaseDicom dxUsVolumeInfo [dxResult, usResult] = some dxResult ∧
    findBaseDicom dxUsVolumeInfo [usResult, dxResult] = some dxResult ∧
    dxResult ≠ usResult := by
  refine ⟨?_, ?_, ?_⟩ <;> decide

/-- A dicom result whose volume has modality CT. -/
def ctResult : LoadableResult :=
  { dataID := "vol-ct", dataSource := { fileSrc := none, archiveSrc := none }, dataType := .dicom }

/-- A dicom result whose volume has modality MR. -/
def mrResult : LoadableResult :=
  { dataID := "vol-mr", dataSource := { fileSrc := none, archiveSrc := none }, dataType := .dicom }

/-- Volume metadata: CT with 10 slices, MR with 20 slices (both priority 3). -/
def ctMrVolumeInfo : String → Option VolumeInfo :=
  fun id =>
    if id = "vol-ct" then some { Modality := some "CT", NumberOfSlices := some 10 }
    else if id = "vol-mr" then some { Modality := some "MR", NumberOfSlices := some 20 }
    else none

theorem jsSort_pair (cmp : α → α → Int) (a b : α) :
    jsSort cmp [a, b] = if cmp a b > 0 then [b, a] else [a, b] := by
  simp [jsSort, jsInsert]

theorem findBaseDicom_pair (vol : String → Option VolumeInfo)
    (r1 r2 : LoadableResult) (c1 c2 : DicomCandidate)
    (h1 : r1.dataType = DataType.dicom) (h2 : r2.dataType = DataType.dicom)
    (hc1 : toDicomCandidate vol r1 = some c1)
    (hc2 : toDicomCandidate vol r2 = some c2) :
    findBaseDicom vol [r1, r2] =
      some (if dicomCompare c1 c2 > 0 then c2.dicomSource else c1.dicomSource) := by
  simp only [findBaseDicom]
  rw [show (List.filter (fun r => r.dataType == DataType.dicom) [r1, r2]) = [r1, r2] by
    simp [List.filter, h1, h2]]
  rw [show (List.filterMap (toDicomCandidate vol) [r1, r2]) = [c1, c2] by
    simp [List.filterMap, hc1, hc2]]
  rw [jsSort_pair]
  split <;> simp

/-- C4: when two dicom candidates have equal modality priority, the one with
the larger (present, nonzero) slice count is selected regardless of input
order; a candidate with missing/zero slice count loses to one with a present
nonzero count; and on the spec's concrete example — CT with 10 slices versus
MR with 20 slices, both priority 3 — the MR result is selected. -/
theorem findBaseDicom_slice_tiebreak :
    (∀ (vol : String → Option VolumeInfo) (r1 r2 : LoadableResult)
        (i1 i2 : VolumeInfo) (m1 m2 : String) (p n1 n2 : Nat),
      r1.dataType = DataType.dicom → r2.dataType = DataType.dicom →
      vol r1.dataID = some i1 → vol r2.dataID = some i2 →
      i1.Modality = some m1 → i2.Modality = some m2 →
      modalityPriority m1 = some p → modalityPriority m2 = some p →
      i1.NumberOfSlices = some n1 → i2.NumberOfSlices = some n2 →
      0 < n1 → n1 < n2 →
      findBaseDicom vol [r1, r2] = some r2 ∧
      findBaseDicom vol [r2, r1] = some r2) ∧
    (∀ (vol : String → Option VolumeInfo) (r1 r2 : LoadableResult)
        (i1 i2 : VolumeInfo) (m1 m2 : String) (p n2 : Nat),
      r1.dataType = DataType.dicom → r2.dataType = DataType.dicom →
      vol r1.dataID = some i1 → vol r2.dataID = some i2 →
      i1.Modality = some m1 → i2.Modality = some m2 →
      modalityPriority m1 = some p → modalityPriority m2 = some p →
      jsFalsyNat i1.NumberOfSlices = true → i2.NumberOfSlices = some n2 →
      0 < n2 →
      findBaseDicom vol [r1, r2] = some r2 ∧
      findBaseDicom vol [r2, r1] = some r2) ∧
    (findBaseDicom ctMrVolumeInfo [ctResult, mrResult] = some mrResult ∧
     findBaseDicom ctMrVolumeInfo [mrResult, ctResult] = some mrResult) := by
  refine ⟨?_, ?_, by decide, by decide⟩
  · intro vol r1 r2 i1 i2 m1 m2 p n1 n2 h1 h2 hv1 hv2 hm1 hm2 hp1 hp2 hn1 hn2 hpos hlt
    have hc1 : toDicomCandidate vol r1 = some ⟨r1, p, i1⟩ := by
      simp [toDicomCandidate, hv1, hm1, hp1]
    have hc2 : toDicomCandidate vol r2 = some ⟨r2, p, i2⟩ := by
      simp [toDicomCandidate, hv2, hm2, hp2]
    have hcmp12 : dicomCompare ⟨r1, p, i1⟩ ⟨r2, p, i2⟩ > 0 := by
      simp [dicomCompare, jsFalsyNat, hn1, hn2]
      rw [if_neg (by omega : ¬ n1 = 0), if_neg (by omega : ¬ n2 = 0)]
      omega
    have hcmp21 : ¬ dicomCompare ⟨r2, p, i2⟩ ⟨r1, p, i1⟩ > 0 := by
      simp [dicomCompare, jsFalsyNat, hn1, hn2]
      rw [if_neg (by omega : ¬ n2 = 0), if_neg (by omega : ¬ n1 = 0)]
      omega
    constructor
    · rw [findBaseDicom_pair vol r1 r2 _ _ h1 h2 hc1 hc2, if_pos hcmp12]
    · rw [findBaseDicom_pair vol r2 r1 _ _ h2 h1 hc2 hc1, if_neg hcmp21]
  · intro vol r1 r2 i1 i2 m1 m2 p n2 h1 h2 hv1 hv2 hm1 hm2 hp1 hp2 hfal hn2 hpos
    have hc1 : toDicomCandidate vol r1 = some ⟨r1, p, i1⟩ := by
      simp [toDicomCandidate, hv1, hm1, hp1]
    have hc2 : toDicomCandidate vol r2 = some ⟨r2, p, i2⟩ := by
      simp [toDicomCandidate, hv2, hm2, hp2]
    have hfal2 : jsFalsyNat i2.NumberOfSlices = false := by
      have hne : n2 ≠ 0 := by omega
      simp [jsFalsyNat, hn2, hne]
    have hcmp12 : dicomCompare ⟨r1, p, i1⟩ ⟨r2, p, i2⟩ > 0 := by
      simp [dicomCompare, hfal]
    have hcmp21 : ¬ dicomCompare ⟨r2, p, i2⟩ ⟨r1, p, i1⟩ > 0 := by
      simp [dicomCompare, hfal, hfal2]
    constructor
    · rw [findBaseDicom_pair vol r1 r2 _ _ h1 h2 hc1 hc2, if_pos hcmp12]
    · rw [findBaseDicom_pair vol r2 r1 _ _ h2 h1 hc2 hc1, if_neg hcmp21]

/-- Witness for `findBaseDicom_slice_tiebreak`: its hypotheses are satisfied
at the concrete CT/MR fixture. -/
theorem findBaseDicom_slice_tiebreak_witness :
    findBaseDicom ctMrVolumeInfo [ctResult, mrResult] = some mrResult ∧
    findBaseDicom ctMrVolumeInfo [mrResult, ctResult] = some mrResult :=
  findBaseDicom_slice_tiebreak.1 ctMrVolumeInfo ctResult mrResult
    { Modality := some "CT", NumberOfSlices := some 10 }
    { Modality := some "MR", NumberOfSlices := some 20 }
    "CT" "MR" 3 10 20
    (by decide) (by decide) (by decide) (by decide) (by decide) (by decide)
    (by decide) (by decide) (by decide) (by decide) (by decide) (by decide)

/-- One error record of a failed pipeline branch:
`{ cause, message, inputDataStackTrace }` (spec §3). The stack trace is the
derivation chain from the failure point back to the top-level input,
innermost first. -/
structure ErrorRec where
  message : String
  cause : String
  inputDataStackTrace : List DataSource
deriving DecidableEq, Repr

/-- Modelled from the spec: a `PipelineResult` (src/core/pipeline is not
among the given sources) is either a success — the originating data source
plus the ordered import results it produced — or a failure carrying one or
more error records (encoded as a first record plus the rest). -/
inductive PipelineResult where
  | success (dataSource : DataSource) (data : List ImportResult)
  | failure (firstError : ErrorRec) (moreErrors : List ErrorRec)
deriving DecidableEq, Repr

/-- Whether a pipeline result is a success (the `ok` discriminant). -/
def PipelineResult.ok : PipelineResult → Bool
  | .success _ _ => true
  | .failure _ _ => false

/-- Modelled from the spec: `partitionResults` (src/core/pipeline) classifies
every branch outcome into succeeded or errored, as a pure function with no
side effects. -/
def partitionResults (results : List PipelineResult) :
    List PipelineResult × List PipelineResult :=
  (results.filter (fun r => r.ok), results.filter (fun r => !r.ok))

theorem filter_length_partition (results : List PipelineResult) :
    (results.filter (fun r => r.ok)).length
      + (results.filter (fun r => !r.ok)).length = results.length := by
  induction results with
  | nil => rfl
  | cons r rest ih =>
    by_cases h : r.ok = true <;> simp [List.filter_cons, h] <;> omega

theorem count_filter_of_pred (p : PipelineResult → Bool) (r : PipelineResult)
    (h : p r = true) :
    ∀ l : List PipelineResult, (l.filter p).count r = l.count r := by
  intro l
  induction l with
  | nil => rfl
  | cons x rest ih =>
    by_cases hx : p x = true
    · simp [List.filter_cons, hx, List.count_cons, ih]
    · have hne : r ≠ x := fun he => by rw [he] at h; exact hx h
      simp [List.filter_cons, hx, List.count_cons, ih, hne]

theorem filter_count_partition (results : List PipelineResult)
    (r : PipelineResult) :
    (results.filter (fun x => x.ok)).count r
      + (results.filter (fun x => !x.ok)).count r = results.count r := by
  by_cases h : r.ok = true
  · rw [count_filter_of_pred (fun x => x.ok) r (by simpa using h) results]
    have hz : (results.filter (fun x => !x.ok)).count r = 0 := by
      rw [List.count_eq_zero]
      intro hmem
      have hp := List.of_mem_filter hmem
      simp [h] at hp
    omega
  · have hnok : r.ok = false := by simpa using h
    rw [count_filter_of_pred (fun x => !x.ok) r (by simp [hnok]) results]
    have hz : (results.filter (fun x => x.ok)).count r = 0 := by
      rw [List.count_eq_zero]
      intro hmem
      have hp := List.of_mem_filter hmem
      simp [hnok] at hp
    omega

/-- C2: partitioning `N` pipeline results is total — the two output lists'
lengths sum to `N`, every result value occurs in the outputs exactly as often
as in the input (never dropped, never duplicated), no result is in both
outputs, and each output is a sublist of the input (relative order is
preserved). -/
theorem partitionResults_total (results : List PipelineResult) :
    (partitionResults results).1.length + (partitionResults results).2.length
        = results.length ∧
    (∀ r : PipelineResult,
      (partitionResults results).1.count r + (partitionResults results).2.count r
        = results.count r) ∧
    (∀ r : PipelineResult,
      r ∈ (partitionResults results).1 → r ∉ (partitionResults results).2) ∧
    (partitionResults results).1.Sublist results ∧
    (partitionResults results).2.Sublist results := by
  refine ⟨filter_length_partition results, fun r => filter_count_partition results r,
    ?_, List.filter_sublist _, List.filter_sublist _⟩
  intro r h1 h2
  have hok : PipelineResult.ok r = true := by
    have := List.of_mem_filter h1
    simpa using this
  have hnok : PipelineResult.ok r = false := by
    have := List.of_mem_filter h2
    simpa using this
  rw [hok] at hnok
  simp at hnok

/-- A concrete two-success, one-failure batch used as a witness input. -/
def sampleBatch : List PipelineResult :=
  [PipelineResult.success { fileSrc := none, archiveSrc := none } [],
   PipelineResult.failure { message := "m", cause := "c", inputDataStackTrace := [] } [],
   PipelineResult.success { fileSrc := none, archiveSrc := none } []]

/-- Witness for `partitionResults_total`: evaluated at a concrete
two-success, one-failure batch, discharging the membership hypothesis of the
exclusivity conjunct there. -/
theorem partitionResults_total_witness :
    (partitionResults sampleBatch).1.length
        + (partitionResults sampleBatch).2.length = 3 ∧
    PipelineResult.success { fileSrc := none, archiveSrc := none } []
      ∉ (partitionResults sampleBatch).2 :=
  ⟨(partitionResults_total sampleBatch).1,
   (partitionResults_total sampleBatch).2.2.1 _ (by decide)⟩

/-- One entry of a zip archive as enumerated by `JSZip`: its full path inside
the archive, whether it is a directory entry, and its byte content. -/
structure ZipEntry where
  name : String
  dir : Bool
  content : String
deriving DecidableEq, Repr

/-- Split a character list on a separator character; the embedding of
JavaScript `String.prototype.split` with a one-character separator (splitting
the empty string yields one empty field, as in JavaScript). -/
def splitOnCharList (c : Char) : List Char → List (List Char)
  | [] => [[]]
  | x :: xs =>
    match splitOnCharList c xs with
    | [] => [[]]
    | r :: rs => if x = c then [] :: r :: rs else (x :: r) :: rs

/-- JavaScript `s.split(c)` for a one-character separator. -/
def jsSplit (c : Char) (s : String) : List String :=
  (splitOnCharList c s.data).map (fun l => String.mk l)

/-- Modelled from the spec: `basename` (src/utils/path is not among the given
sources) — the final path component, the child's derived name. -/
def basename (p : String) : String := (jsSplit '/' p).getLastD ""

/-- Modelled from the spec: `dirname` (src/utils/path is not among the given
sources) — the containing directory path within the archive, the empty string
for root-level entries. -/
def dirname (p : String) : String :=
  String.intercalate "/" ((jsSplit '/' p).dropLast)

/-- One child produced by `extractFilesFromZip`:
`{ file, archivePath }`. -/
structure ZipChild where
  file : File
  archivePath : String
deriving DecidableEq, Repr

/-- The lookup `zip.file(name)` in `JSZip`: the non-directory entry with that exact
path, if any. -/
def zipFileLookup (zip : List ZipEntry) (name : String) : Option ZipEntry :=
  (zip.filter (fun e => !e.dir)).find? (fun e => e.name == name)

/-- One iteration of the `zip.forEach` loop in `extractFilesFromZip`
(src/io/zip.ts): skip directory entries, re-look the entry up with
`zip.file`, and push the extracted file and its directory path onto the two
parallel accumulators. -/
def extractStep (zip : List ZipEntry) (acc : List File × List String)
    (e : ZipEntry) : List File × List String :=
  if !e.dir then
    match zipFileLookup zip e.name with
    | some fileEntry =>
      (acc.1 ++ [{ name := basename e.name, content := fileEntry.content }],
       acc.2 ++ [dirname e.name])
    | none => acc
  else acc

/-- The final `files.map((file, index) => ({ file, archivePath: paths[index] }))`
collation: pair each file with the path at the same index. -/
def attachPaths : List File → List String → List ZipChild
  | [], _ => []
  | f :: fs, ps =>
    { file := f, archivePath := ps.headD "" } :: attachPaths fs ps.tail

/-- The function `extractFilesFromZip` from `src/io/zip.ts`, over the archive's own entry
enumeration: collect extracted files and their directory paths in enumeration
order, then pair them up by index. -/
def extractFilesFromZip (zip : List ZipEntry) : List ZipChild :=
  let acc := zip.foldl (extractStep zip) ([], [])
  attachPaths acc.1 acc.2

/-- The expected child of a non-directory entry: name is the basename, path
the containing directory, content carried over. -/
def expectedChild (e : ZipEntry) : ZipChild :=
  { file := { name := basename e.name, content := e.content },
    archivePath := dirname e.name }

theorem zipFileLookup_self (zip : List ZipEntry)
    (hnd : (zip.map (fun e => e.name)).Nodup) :
    ∀ e ∈ zip, e.dir = false → zipFileLookup zip e.name = some e := by
  induction zip with
  | nil => intro e he; cases he
  | cons x rest ih =>
    intro e he hdir
    simp only [List.map_cons, List.nodup_cons] at hnd
    rcases List.mem_cons.mp he with he | he
    · subst he
      have hfilter : (e :: rest).filter (fun x => !x.dir)
          = e :: rest.filter (fun x => !x.dir) := by
        simp [List.filter_cons, hdir]
      rw [zipFileLookup, hfilter, List.find?_cons_of_pos _ (by simp)]
    · have hne : x.name ≠ e.name := by
        intro hcontra
        exact hnd.1 (hcontra ▸ List.mem_map_of_mem (fun e => e.name) he)
      have hres := ih hnd.2 e he hdir
      by_cases hxd : x.dir = true
      · simpa [zipFileLookup, List.filter_cons, hxd] using hres
      · have hxd' : x.dir = false := by simpa using hxd
        have hfilter : (x :: rest).filter (fun y => !y.dir)
            = x :: rest.filter (fun y => !y.dir) := by
          simp [List.filter_cons, hxd']
        rw [zipFileLookup, hfilter, List.find?_cons_of_neg _ (by simp [hne])]
        exact hres

theorem extractFold_spec (zip : List ZipEntry)
    (hnd : (zip.map (fun e => e.name)).Nodup) :
    ∀ (l : List ZipEntry) (acc : List File × List String),
      (∀ e ∈ l, e ∈ zip) →
      l.foldl (extractStep zip) acc =
        (acc.1 ++ (l.filter (fun e => !e.dir)).map
            (fun e => { name := basename e.name, content := e.content }),
         acc.2 ++ (l.filter (fun e => !e.dir)).map (fun e => dirname e.name)) := by
  intro l
  induction l with
  | nil => intro acc _; simp
  | cons e rest ih =>
    intro acc hsub
    have hes : e ∈ zip := hsub e (List.mem_cons_self e rest)
    have hrest : ∀ x ∈ rest, x ∈ zip := fun x hx => hsub x (List.mem_cons_of_mem e hx)
    by_cases hd : e.dir = true
    · rw [List.foldl_cons]
      rw [show extractStep zip acc e = acc by simp [extractStep, hd]]
      rw [ih acc hrest]
      simp [List.filter_cons, hd]
    · have hd' : e.dir = false := by simpa using hd
      have hlook := zipFileLookup_self zip hnd e hes hd'
      rw [List.foldl_cons]
      rw [show extractStep zip acc e =
          (acc.1 ++ [{ name := basename e.name, content := e.content }],
           acc.2 ++ [dirname e.name]) by simp [extractStep, hd', hlook]]
      rw [ih _ hrest]
      simp [List.filter_cons, hd']

theorem attachPaths_map (f : ZipEntry → File) (g : ZipEntry → String) :
    ∀ l : List ZipEntry,
      attachPaths (l.map f) (l.map g) =
        l.map (fun e => { file := f e, archivePath := g e }) := by
  intro l
  induction l with
  | nil => rfl
  | cons e rest ih => simp [attachPaths, ih]

/-- C3: for an archive whose entry names are distinct (as `JSZip` guarantees,
entries being keyed by path), extraction yields exactly the non-directory
entries, in the archive's own enumeration order, each child pairing the
entry's basename and content with its containing directory path; in
particular its length is the number of non-directory entries, every child's
fields come from one non-directory entry, and an archive with no entries or
only directory entries yields the empty list. -/
theorem extractFilesFromZip_spec (zip : List ZipEntry)
    (hnd : (zip.map (fun e => e.name)).Nodup) :
    extractFilesFromZip zip = (zip.filter (fun e => !e.dir)).map expectedChild ∧
    (extractFilesFromZip zip).length = (zip.filter (fun e => !e.dir)).length ∧
    (∀ c ∈ extractFilesFromZip zip, ∃ e ∈ zip, e.dir = false ∧
      c.file.name = basename e.name ∧ c.file.content = e.content ∧
      c.archivePath = dirname e.name) ∧
    (zip.filter (fun e => !e.dir) = [] → extractFilesFromZip zip = []) := by
  have hmain : extractFilesFromZip zip
      = (zip.filter (fun e => !e.dir)).map expectedChild := by
    unfold extractFilesFromZip
    rw [extractFold_spec zip hnd zip ([], []) (fun e he => he)]
    simp only [List.nil_append]
    rw [attachPaths_map
      (fun e => { name := basename e.name, content := e.content })
      (fun e => dirname e.name) (zip.filter (fun e => !e.dir))]
    rfl
  refine ⟨hmain, by rw [hmain]; simp, ?_, ?_⟩
  · intro c hc
    rw [hmain] at hc
    obtain ⟨e, hef, hce⟩ := List.mem_map.mp hc
    have hez : e ∈ zip := List.mem_of_mem_filter hef
    have hed : e.dir = false := by
      have := List.of_mem_filter hef
      simpa using this
    exact ⟨e, hez, hed, by rw [← hce]; rfl, by rw [← hce]; rfl, by rw [← hce]; rfl⟩
  · intro hempty
    rw [hmain, hempty]
    rfl

/-- A concrete nested archive: a directory entry, a file inside it, a
root-level file, and a file nested two levels deep. -/
def sampleZip : List ZipEntry :=
  [{ name := "dir/", dir := true, content := "" },
   { name := "dir/a.txt", dir := false, content := "A" },
   { name := "b.txt", dir := false, content := "B" },
   { name := "dir/sub/c.txt", dir := false, content := "C" }]

/-- Witness for `extractFilesFromZip_spec`: the concrete nested archive has
distinct entry names, and extraction yields its three non-directory entries
with the expected basenames and directory paths. -/
theorem extractFilesFromZip_spec_witness :
    extractFilesFromZip sampleZip =
      [{ file := { name := "a.txt", content := "A" }, archivePath := "dir" },
       { file := { name := "b.txt", content := "B" }, archivePath := "" },
       { file := { name := "c.txt", content := "C" }, archivePath := "dir/sub" }] := by
  rw [(extractFilesFromZip_spec sampleZip (by decide)).1]
  decide

/-- Modelled from the spec: `getDataSourceName` (src/io/import/dataSource is
not among the given sources) — the display name of a data source, taken from
its underlying byte source. -/
def getDataSourceName (ds : DataSource) : Option String :=
  ds.fileSrc.map (fun fs => fs.file.name)

/-- The predicate `isSegmentation` from `src/actions/loadUserFiles.ts`: an empty extension
matches no name; otherwise the dot-separated tokens after the first must
include the extension. -/
def isSegmentation (extension name : String) : Bool :=
  if extension = "" then false
  else ((jsSplit '.' name).drop 1).contains extension

/-- The filter body inside `findBaseImage`: a result is kept when it has a
(truthy) display name that is not a segmentation name. -/
def keepsBaseImage (segmentGroupExtension : String)
    (importResult : LoadableResult) : Bool :=
  match getDataSourceName importResult.dataSource with
  | none => false
  | some name =>
    if name = "" then false
    else !isSegmentation segmentGroupExtension name

/-- The function `findBaseImage` from `src/actions/loadUserFiles.ts`: among image-kind
results, keep those passing `keepsBaseImage` and return the first. -/
def findBaseImage (loadableDataSources : List LoadableResult)
    (segmentGroupExtension : String) : Option LoadableResult :=
  ((loadableDataSources.filter (fun r => r.dataType == DataType.image)).filter
    (keepsBaseImage segmentGroupExtension)).head?

/-- An image result named `brain.seg.nii`. -/
def brainSegResult : LoadableResult :=
  { dataID := "img-seg",
    dataSource :=
      { fileSrc := some { file := { name := "brain.seg.nii", content := "" },
                          fileType := "nii" },
        archiveSrc := none },
    dataType := .image }

/-- An image result named `brain.nii`. -/
def brainNiiResult : LoadableResult :=
  { dataID := "img-base",
    dataSource :=
      { fileSrc := some { file := { name := "brain.nii", content := "" },
                          fileType := "nii" },
        archiveSrc := none },
    dataType := .image }

/-- C5: a name is a segmentation name iff the configured extension is
nonempty and occurs among the dot-separated tokens after the first (so an
empty configured extension classifies no name as a segmentation);
`findBaseImage` returns the first result, in original order, of image kind
whose display name exists and is not a segmentation name; and on the spec's
concrete example — `brain.seg.nii` and `brain.nii` with extension `"seg"` —
the `brain.nii` result is returned even when listed second. -/
theorem findBaseImage_spec :
    (∀ name : String, isSegmentation "" name = false) ∧
    (∀ extension name : String,
      isSegmentation extension name = true ↔
        extension ≠ "" ∧ extension ∈ (jsSplit '.' name).drop 1) ∧
    (∀ (l : List LoadableResult) (extension : String),
      findBaseImage l extension =
        (l.filter (fun r => r.dataType == DataType.image
            && keepsBaseImage extension r)).head?) ∧
    findBaseImage [brainSegResult, brainNiiResult] "seg" = some brainNiiResult := by
  refine ⟨fun name => by simp [isSegmentation], ?_, ?_, by decide⟩
  · intro extension name
    by_cases hext : extension = ""
    · simp [isSegmentation, hext]
    · simp [isSegmentation, hext, List.contains, List.elem_iff]
  · intro l extension
    rw [findBaseImage, List.filter_filter]
    congr 1
    apply List.filter_congr
    intro a _
    rw [Bool.and_comm]

/-- Witness for `findBaseImage_spec`: the segmentation-name characterization
discharged at the concrete extension `"seg"` and name `"brain.seg.nii"`,
alongside the concrete selection. -/
theorem findBaseImage_spec_witness :
    isSegmentation "seg" "brain.seg.nii" = true ∧
    findBaseImage [brainSegResult, brainNiiResult] "seg" = some brainNiiResult :=
  ⟨(findBaseImage_spec.2.1 "seg" "brain.seg.nii").mpr ⟨by decide, by decide⟩,
   findBaseImage_spec.2.2.2⟩

/-- A decoded dataset object, carrying only the class tag the handler
inspects via `isA`. -/
structure DataObject where
  className : String
deriving DecidableEq, Repr

/-- The test `dataObject.isA(kind)`: class-tag test. -/
def DataObject.isA (obj : DataObject) (k : String) : Bool := obj.className == k

/-- The observable outcome of one import handler invocation: pass the data
source through, terminate the branch via `done`, or throw. -/
inductive HandlerOutcome where
  | pass (dataSource : DataSource)
  | done (result : ImportResult)
  | err (message : String)
deriving DecidableEq, Repr

/-- The handler `importSingleFile` from the `VtkSliceView.vue` source section (lines
145–194): no file source or no registered reader passes the source through;
otherwise the reader's decoded object is registered with the image store when
it is a `vtkImageData`, terminating the branch with one `ImportResult`, and
any other decoded kind throws. The `FILE_READERS` registry and the image
store's `addVTKImageData` registration are passed in as functions; the file
store bookkeeping has no observable effect on the outcome. -/
def importSingleFile (fileReaders : String → Option (File → DataObject))
    (addVTKImageData : String → DataObject → String)
    (dataSource : DataSource) : HandlerOutcome :=
  match dataSource.fileSrc with
  | none => .pass dataSource
  | some fileSrc =>
    match fileReaders fileSrc.fileType with
    | none => .pass dataSource
    | some reader =>
      let dataObject := reader fileSrc.file
      if dataObject.isA "vtkImageData" then
        .done { dataID := addVTKImageData fileSrc.file.name dataObject,
                dataSource := dataSource, dataType := DataType.image }
      else
        .err "Data reader did not produce a valid dataset"

/-- C6: with a file source whose type has a registered reader, the handler
either terminates the branch with exactly one `ImportResult`
`{ dataID, dataSource, dataType }` — the `dataID` obtained by registering the
decoded `vtkImageData` with the image store — or, for any other decoded kind,
throws with a descriptive cause. -/
theorem importSingleFile_reader_spec
    (fileReaders : String → Option (File → DataObject))
    (addVTKImageData : String → DataObject → String)
    (dataSource : DataSource) (fileSrc : FileSrc) (reader : File → DataObject)
    (hfs : dataSource.fileSrc = some fileSrc)
    (hreader : fileReaders fileSrc.fileType = some reader) :
    ((reader fileSrc.file).isA "vtkImageData" = true →
      importSingleFile fileReaders addVTKImageData dataSource =
        .done { dataID := addVTKImageData fileSrc.file.name (reader fileSrc.file),
                dataSource := dataSource, dataType := DataType.image }) ∧
    ((reader fileSrc.file).isA "vtkImageData" = false →
      importSingleFile fileReaders addVTKImageData dataSource =
        .err "Data reader did not produce a valid dataset") := by
  constructor
  · intro hkind
    simp [importSingleFile, hfs, hreader, hkind]
  · intro hkind
    simp [importSingleFile, hfs, hreader, hkind]

/-- A reader registry recognizing only the `"nii"` file type, decoding to a
`vtkImageData` object. -/
def niiReaders : String → Option (File → DataObject) :=
  fun t => if t = "nii" then some (fun _ => { className := "vtkImageData" }) else none

/-- A reader registry recognizing only the `"obj"` file type, decoding to a
`vtkPolyData` object (an unsupported kind for this handler). -/
def objReaders : String → Option (File → DataObject) :=
  fun t => if t = "obj" then some (fun _ => { className := "vtkPolyData" }) else none

/-- A concrete image-store registration function. -/
def sampleRegister : String → DataObject → String := fun n _ => n ++ "-id"

/-- A data source carrying `brain.nii` with file type `"nii"`. -/
def niiDataSource : DataSource :=
  { fileSrc := some { file := { name := "brain.nii", content := "" },
                      fileType := "nii" },
    archiveSrc := none }

/-- A data source carrying `mesh.obj` with file type `"obj"`. -/
def objDataSource : DataSource :=
  { fileSrc := some { file := { name := "mesh.obj", content := "" },
                      fileType := "obj" },
    archiveSrc := none }

/-- Witness for `importSingleFile_reader_spec`: on the recognized `nii` input
the handler terminates with the registered `ImportResult`, and on the
unsupported decoded kind it throws. -/
theorem importSingleFile_reader_spec_witness :
    importSingleFile niiReaders sampleRegister niiDataSource =
      .done { dataID := "brain.nii-id", dataSource := niiDataSource,
              dataType := DataType.image } ∧
    importSingleFile objReaders sampleRegister objDataSource =
      .err "Data reader did not produce a valid dataset" :=
  ⟨(importSingleFile_reader_spec niiReaders sampleRegister niiDataSource
      { file := { name := "brain.nii", content := "" }, fileType := "nii" }
      (fun _ => { className := "vtkImageData" }) rfl rfl).1 (by decide),
   (importSingleFile_reader_spec objReaders sampleRegister objDataSource
      { file := { name := "mesh.obj", content := "" }, fileType := "obj" }
      (fun _ => { className := "vtkPolyData" }) rfl rfl).2 (by decide)⟩

/-- C7: without a file source, or without a registered reader for the file's
type, the handler returns the data source unchanged — neither `done` nor a
throw. -/
theorem importSingleFile_passthrough
    (fileReaders : String → Option (File → DataObject))
    (addVTKImageData : String → DataObject → String)
    (dataSource : DataSource) :
    (dataSource.fileSrc = none →
      importSingleFile fileReaders addVTKImageData dataSource = .pass dataSource) ∧
    (∀ fileSrc : FileSrc, dataSource.fileSrc = some fileSrc →
      fileReaders fileSrc.fileType = none →
      importSingleFile fileReaders addVTKImageData dataSource = .pass dataSource) := by
  constructor
  · intro hfs
    simp [importSingleFile, hfs]
  · intro fileSrc hfs hreader
    simp [importSingleFile, hfs, hreader]

/-- Witness for `importSingleFile_passthrough`: a source with no file at all,
and the `obj` source against the `nii`-only registry, both pass through. -/
theorem importSingleFile_passthrough_witness :
    importSingleFile niiReaders sampleRegister
        { fileSrc := none, archiveSrc := none } =
      .pass { fileSrc := none, archiveSrc := none } ∧
    importSingleFile niiReaders sampleRegister objDataSource =
      .pass objDataSource :=
  ⟨(importSingleFile_passthrough niiReaders sampleRegister
      { fileSrc := none, archiveSrc := none }).1 rfl,
   (importSingleFile_passthrough niiReaders sampleRegister objDataSource).2
      { file := { name := "mesh.obj", content := "" }, fileType := "obj" }
      rfl rfl⟩

/-- Modelled from the spec (glossary): a loadable result is an
`ImportResult` of kind image or dicom. -/
def isLoadableResult (r : ImportResult) : Bool :=
  r.dataType == DataType.image || r.dataType == DataType.dicom

/-- Modelled from the spec: a volume result is a loadable result of a
volumetric kind — image or dicom — as opposed to `model` (the only other
possibility named by the source comment at the primary-selection site). -/
def isVolumeResult (r : ImportResult) : Bool :=
  r.dataType == DataType.image || r.dataType == DataType.dicom

/-- Modelled from the spec: `toDataSelection` converts the chosen loadable
result into the dataset store's selection handle; the spec leaves the handle
opaque, so it is the result itself. -/
def toDataSelection (r : LoadableResult) : LoadableResult := r

/-- The import results carried by a successful pipeline result
(`result.data`; a failure carries none). -/
def PipelineResult.resultData : PipelineResult → List ImportResult
  | .success _ data => data
  | .failure _ _ => []

/-- The function `filterLoadableDataSources` from `src/actions/loadUserFiles.ts`. -/
def filterLoadableDataSources (succeeded : List PipelineResult) :
    List ImportResult :=
  succeeded.flatMap (fun result => result.resultData.filter isLoadableResult)

/-- The function `findBaseDataSource` from `src/actions/loadUserFiles.ts`: prefer a dicom
base, then an image base, then the first loadable result. -/
def findBaseDataSource (volumeInfoOf : String → Option VolumeInfo)
    (succeeded : List PipelineResult) (segmentGroupExtension : String) :
    Option LoadableResult :=
  let loadableDataSources := filterLoadableDataSources succeeded
  match findBaseDicom volumeInfoOf loadableDataSources with
  | some baseDicom => some baseDicom
  | none =>
    match findBaseImage loadableDataSources segmentGroupExtension with
    | some baseImage => some baseImage
    | none => loadableDataSources.head?

/-- JavaScript template interpolation of the display name of the innermost
stack-trace element: an absent element prints as `undefined`, an absent name
as `null`. -/
def jsNameString (o : Option DataSource) : String :=
  match o with
  | none => "undefined"
  | some ds =>
    match getDataSourceName ds with
    | none => "null"
    | some n => n

/-- One line of the aggregate failure message
(src/actions/loadUserFiles.ts, lines 148–156): the display name of the
innermost data source in the first error's stack trace, then the first
error's message. Only errored results reach this function. -/
def errorEntry : PipelineResult → String
  | .failure firstError _ =>
    "- " ++ jsNameString firstError.inputDataStackTrace.head? ++ ": "
      ++ firstError.message
  | .success _ _ => ""

/-- The aggregate failure message (src/actions/loadUserFiles.ts,
lines 157–159). -/
def failedLoadMessage (errored : List PipelineResult) : String :=
  "These files failed to load:\n"
    ++ String.intercalate "\n" (errored.map errorEntry)

/-- An observable call on the loading-state coordinator or dataset store
during one `loadDataSources` run. -/
inductive Effect where
  | startLoading
  | stopLoading
  | setError (message : String)
  | setPrimarySelection (selection : LoadableResult)
deriving DecidableEq, Repr

/-- Whether an effect is a `setError` call. -/
def Effect.isSetErrorEff : Effect → Bool
  | .setError _ => true
  | _ => false

/-- Whether an effect is a `setPrimarySelection` call. -/
def Effect.isSetPrimaryEff : Effect → Bool
  | .setPrimarySelection _ => true
  | _ => false

/-- The store state consulted by `loadDataSources`: the dataset store's
current primary selection, the load-data store's segment-group extension, and
the dicom store's volume-info record. -/
structure LoadState where
  primarySelection : Option LoadableResult
  segmentGroupExtension : String
  volumeInfoOf : String → Option VolumeInfo

/-- The primary-selection effects of one run
(src/actions/loadUserFiles.ts, lines 129–145): only when the dataset store
has no primary selection and some result succeeded, and only for a volume
result. -/
def selectionEffects (st : LoadState) (succeeded : List PipelineResult) :
    List Effect :=
  if st.primarySelection.isNone && succeeded.length != 0 then
    match findBaseDataSource st.volumeInfoOf succeeded st.segmentGroupExtension with
    | some primaryDataSource =>
      if isVolumeResult primaryDataSource then
        [.setPrimarySelection (toDataSelection primaryDataSource)]
      else []
    | none => []
  else []

/-- The batch-failure effects of one run (src/actions/loadUserFiles.ts,
lines 147–162): one aggregate `setError` when any result errored. -/
def batchErrorEffects (errored : List PipelineResult) : List Effect :=
  if errored.length != 0 then [.setError (failedLoadMessage errored)] else []

/-- The effect trace of the inner `load` closure of `loadDataSources`: a
throwing import surfaces through `setError` and ends the run; otherwise the
partitioned results drive the selection and batch-error effects. The import
itself (`importDataSources`, not among the given sources) is abstracted as
its outcome: the thrown error or the produced results. -/
def loadTrace (st : LoadState)
    (importOutcome : Except String (List PipelineResult)) : List Effect :=
  match importOutcome with
  | .error e => [.setError e]
  | .ok results =>
    selectionEffects st (partitionResults results).1
      ++ batchErrorEffects (partitionResults results).2

/-- The wrapper `wrapWithLoading` from `src/actions/loadUserFiles.ts`: `startLoading`
before the wrapped run, `stopLoading` in a `finally`, hence after the run
regardless of how it ended. -/
def wrapWithLoading (innerEffects : List Effect) : List Effect :=
  [.startLoading] ++ innerEffects ++ [.stopLoading]

/-- The action `loadDataSources` from `src/actions/loadUserFiles.ts`, as its effect
trace on the stores. -/
def loadDataSources (st : LoadState)
    (importOutcome : Except String (List PipelineResult)) : List Effect :=
  wrapWithLoading (loadTrace st importOutcome)

theorem selectionEffects_shape (st : LoadState)
    (succeeded : List PipelineResult) :
    selectionEffects st succeeded = [] ∨
    ∃ r, selectionEffects st succeeded = [.setPrimarySelection r] := by
  unfold selectionEffects
  split
  · split
    · split
      · right; exact ⟨_, rfl⟩
      · left; rfl
    · left; rfl
  · left; rfl

theorem batchErrorEffects_shape (errored : List PipelineResult) :
    batchErrorEffects errored = [] ∨
    batchErrorEffects errored = [.setError (failedLoadMessage errored)] := by
  unfold batchErrorEffects
  split
  · right; rfl
  · left; rfl

theorem loadTrace_mem (st : LoadState)
    (outcome : Except String (List PipelineResult)) :
    ∀ eff ∈ loadTrace st outcome,
      (∃ m, eff = Effect.setError m) ∨
      (∃ r, eff = Effect.setPrimarySelection r) := by
  intro eff heff
  cases outcome with
  | error e =>
    simp only [loadTrace, List.mem_singleton] at heff
    exact Or.inl ⟨e, heff⟩
  | ok results =>
    simp only [loadTrace, List.mem_append] at heff
    rcases heff with heff | heff
    · rcases selectionEffects_shape st (partitionResults results).1 with hs | ⟨r, hs⟩
      · rw [hs] at heff; cases heff
      · rw [hs] at heff
        simp only [List.mem_singleton] at heff
        exact Or.inr ⟨r, heff⟩
    · rcases batchErrorEffects_shape (partitionResults results).2 with hb | hb
      · rw [hb] at heff; cases heff
      · rw [hb] at heff
        simp only [List.mem_singleton] at heff
        exact Or.inl ⟨_, heff⟩

theorem selectionEffects_of_some (st : LoadState) (sel : LoadableResult)
    (hsel : st.primarySelection = some sel)
    (succeeded : List PipelineResult) :
    selectionEffects st succeeded = [] := by
  unfold selectionEffects
  rw [hsel]
  simp

/-- C10: every `loadDataSources` run — whether the import produced results or
threw — begins with exactly one `startLoading` and ends with exactly one
`stopLoading`; no run has `startLoading` without the matching
`stopLoading`. -/
theorem loadDataSources_bracket (st : LoadState)
    (outcome : Except String (List PipelineResult)) :
    (loadDataSources st outcome).head? = some Effect.startLoading ∧
    (loadDataSources st outcome).getLast? = some Effect.stopLoading ∧
    (loadDataSources st outcome).countP
      (fun e => e == Effect.startLoading) = 1 ∧
    (loadDataSources st outcome).countP
      (fun e => e == Effect.stopLoading) = 1 := by
  have hmem := loadTrace_mem st outcome
  have hstart0 : (loadTrace st outcome).countP
      (fun e => e == Effect.startLoading) = 0 := by
    rw [List.countP_eq_zero]
    intro a ha
    rcases hmem a ha with ⟨m, rfl⟩ | ⟨r, rfl⟩ <;> simp
  have hstop0 : (loadTrace st outcome).countP
      (fun e => e == Effect.stopLoading) = 0 := by
    rw [List.countP_eq_zero]
    intro a ha
    rcases hmem a ha with ⟨m, rfl⟩ | ⟨r, rfl⟩ <;> simp
  refine ⟨rfl, ?_, ?_, ?_⟩
  · rw [loadDataSources, wrapWithLoading]
    exact List.getLast?_concat _
  · rw [loadDataSources, wrapWithLoading]
    simp [List.countP_append, hstart0, List.countP_cons]
  · rw [loadDataSources, wrapWithLoading]
    simp [List.countP_append, hstop0, List.countP_cons]

/-- C9: when the dataset store already holds a primary selection, no
`setPrimarySelection` call occurs in the run, whatever the batch produced. -/
theorem loadDataSources_keeps_primary (st : LoadState)
    (outcome : Except String (List PipelineResult)) (sel : LoadableResult)
    (hsel : st.primarySelection = some sel) :
    (loadDataSources st outcome).filter Effect.isSetPrimaryEff = [] ∧
    ∀ r : LoadableResult,
      Effect.setPrimarySelection r ∉ loadDataSources st outcome := by
  have htrace : (loadTrace st outcome).filter Effect.isSetPrimaryEff = [] := by
    cases outcome with
    | error e => simp [loadTrace, Effect.isSetPrimaryEff]
    | ok results =>
      rw [loadTrace, selectionEffects_of_some st sel hsel]
      rcases batchErrorEffects_shape (partitionResults results).2 with hb | hb <;>
        simp [hb, Effect.isSetPrimaryEff]
  have hfilter : (loadDataSources st outcome).filter Effect.isSetPrimaryEff = [] := by
    rw [loadDataSources, wrapWithLoading]
    simp [List.filter_append, htrace, Effect.isSetPrimaryEff]
  refine ⟨hfilter, ?_⟩
  intro r hrmem
  have hmemf : Effect.setPrimarySelection r ∈
      (loadDataSources st outcome).filter Effect.isSetPrimaryEff :=
    List.mem_filter.mpr ⟨hrmem, rfl⟩
  rw [hfilter] at hmemf
  cases hmemf

/-- A state whose dataset store already has a primary selection. -/
def primaryHeldState : LoadState :=
  { primarySelection := some brainNiiResult,
    segmentGroupExtension := "seg",
    volumeInfoOf := fun _ => none }

/-- Witness for `loadDataSources_keeps_primary`: with a held primary
selection and a successful batch carrying a loadable image result, no
`setPrimarySelection` occurs. -/
theorem loadDataSources_keeps_primary_witness :
    Effect.setPrimarySelection brainSegResult ∉
      loadDataSources primaryHeldState
        (.ok [PipelineResult.success
          { fileSrc := none, archiveSrc := none } [brainSegResult]]) :=
  (loadDataSources_keeps_primary primaryHeldState
    (.ok [PipelineResult.success
      { fileSrc := none, archiveSrc := none } [brainSegResult]])
    brainNiiResult rfl).2 brainSegResult

/-- The data source of the failing input in the error-message fixtures. -/
def errDataSource : DataSource :=
  { fileSrc := some { file := { name := "a.txt", content := "" },
                      fileType := "txt" },
    archiveSrc := none }

/-- A failed pipeline result whose first error has message `boom` and whose
stack trace's innermost element is `a.txt`. -/
def aFailedResult : PipelineResult :=
  .failure { message := "boom", cause := "boom",
             inputDataStackTrace := [errDataSource] } []

/-- A state with no primary selection. -/
def noPrimState : LoadState :=
  { primarySelection := none,
    segmentGroupExtension := "seg",
    volumeInfoOf := fun _ => none }

/-- C8 counterexample: at a concrete batch with one errored input, the
single `setError` message is the header line `These files failed to load:`
followed by the joined entries — not the bare newline-joined entry list the
claim states. -/
theorem loadDataSources_message_counterexample :
    loadDataSources noPrimState (.ok [aFailedResult]) =
      [Effect.startLoading,
       Effect.setError "These files failed to load:\n- a.txt: boom",
       Effect.stopLoading] ∧
    "These files failed to load:\n- a.txt: boom" ≠ "- a.txt: boom" := by
  constructor
  · rfl
  · decide

/-- C8 (amended): with at least one errored result, the run performs exactly
one `setError`, whose message is the fixed header `These files failed to
load:` followed by the newline-joined `- <name>: <message>` entries, one per
errored input — each entry built from the display name of the innermost
stack-trace element of that result's first error, and that error's message;
and the errored partition consists exactly of the failed results. -/
theorem loadDataSources_error_aggregate (st : LoadState)
    (results : List PipelineResult)
    (hne : (partitionResults results).2 ≠ []) :
    (loadDataSources st (.ok results)).filter Effect.isSetErrorEff
      = [Effect.setError ("These files failed to load:\n"
          ++ String.intercalate "\n"
              ((partitionResults results).2.map errorEntry))] ∧
    (∀ (e : ErrorRec) (rest : List ErrorRec),
      PipelineResult.failure e rest ∈ (partitionResults results).2 →
      errorEntry (.failure e rest)
        = "- " ++ jsNameString e.inputDataStackTrace.head? ++ ": "
            ++ e.message) ∧
    (∀ r ∈ (partitionResults results).2, r.ok = false) := by
  refine ⟨?_, fun e rest _ => rfl, ?_⟩
  · have hlen : (partitionResults results).2.length ≠ 0 := by
      intro h
      exact hne (List.length_eq_zero.mp h)
    have herr : batchErrorEffects (partitionResults results).2
        = [Effect.setError (failedLoadMessage (partitionResults results).2)] := by
      unfold batchErrorEffects
      simp [hlen]
    have hsel : (selectionEffects st (partitionResults results).1).filter
        Effect.isSetErrorEff = [] := by
      rcases selectionEffects_shape st (partitionResults results).1 with h | ⟨r, h⟩ <;>
        simp [h, Effect.isSetErrorEff]
    rw [loadDataSources, wrapWithLoading, loadTrace]
    simp [List.filter_append, hsel, herr, Effect.isSetErrorEff, failedLoadMessage]
  · intro r hr
    have hp := List.of_mem_filter hr
    simpa using hp

/-- Witness for `loadDataSources_error_aggregate`: applied to the concrete
one-errored-input batch. -/
theorem loadDataSources_error_aggregate_witness :
    (loadDataSources noPrimState (.ok [aFailedResult])).filter
        Effect.isSetErrorEff
      = [Effect.setError ("These files failed to load:\n"
          ++ String.intercalate "\n"
              ((partitionResults [aFailedResult]).2.map errorEntry))] :=
  (loadDataSources_error_aggregate noPrimState [aFailedResult]
    (by decide)).1

end VtkWidget
